import Mathlib

/-!
Verification of the Document Structuring Pipeline of the ORCCortex backend.

The Python sources embedded here are:
  * `src/app/services/markdown_ocr_service.py` (OCR fallback ladder,
    text-to-markdown structuring heuristic),
  * `src/app/routers/upload.py` (page-count helper, per-page background
    processing, result sink, cleanup),
  * `src/app/services/firebase_service.py` (`update_problem`).

Strings are modelled as `List Char` (ASCII fragment of Python `str`);
Python exceptions are modelled with `Except`; external effects (PyMuPDF,
Tesseract, Firestore, the file system) are modelled as oracles supplied in
an environment record, so every function here is executable.
-/

/-! ## ASCII character classes (Python `str` predicates, ASCII fragment) -/

/-- ASCII uppercase letter, Python regex class `[A-Z]`. -/
def isUpperA (c : Char) : Bool := 'A' ≤ c && c ≤ 'Z'

/-- ASCII lowercase letter, Python regex class `[a-z]`. -/
def isLowerA (c : Char) : Bool := 'a' ≤ c && c ≤ 'z'

/-- ASCII letter, Python regex class `[a-zA-Z]`. -/
def isAlphaA (c : Char) : Bool := isUpperA c || isLowerA c

/-- ASCII digit, Python regex class `\d` (ASCII fragment). -/
def isDigitA (c : Char) : Bool := '0' ≤ c && c ≤ '9'

/-- Python regex class `\w` (ASCII fragment). -/
def isWordA (c : Char) : Bool := isAlphaA c || isDigitA c || c == '_'

/-- Python `str.strip` / regex `\s` whitespace set (ASCII fragment). -/
def isSpaceA (c : Char) : Bool :=
  c == ' ' || c == '\t' || c == '\n' || c == '\r' || c == '\x0b' || c == '\x0c'

/-! ## Python string helpers on `List Char` -/

/-- Python `str.strip()`: drop whitespace from both ends. -/
def pyStrip (l : List Char) : List Char :=
  ((l.dropWhile isSpaceA).reverse.dropWhile isSpaceA).reverse

/-- Python `text.split('\n')` (keeps empty pieces; result is never `[]`). -/
def splitNL : List Char → List (List Char)
  | [] => [[]]
  | c :: rest =>
    let r := splitNL rest
    if c == '\n' then [] :: r
    else
      match r with
      | g :: gs => (c :: g) :: gs
      | [] => [[c]]

/-- Python `'\n'.join(groups)`. -/
def joinNL : List (List Char) → List Char
  | [] => []
  | [g] => g
  | g :: gs => g ++ '\n' :: joinNL gs

/-- Worker for `collapseNL`; `k` counts the newlines already emitted in the
current newline run (saturating at 2). -/
def collapseNLAux : Nat → List Char → List Char
  | _, [] => []
  | k, c :: rest =>
    if c == '\n' then
      if k ≥ 2 then collapseNLAux k rest
      else c :: collapseNLAux (k + 1) rest
    else c :: collapseNLAux 0 rest

/-- Python `re.sub(r'\n{3,}', '\n\n', s)`: every maximal run of `n ≥ 3`
newlines is replaced by exactly two newlines; shorter runs are kept. -/
def collapseNL (l : List Char) : List Char := collapseNLAux 0 l

/-- Does the character list contain three consecutive newline characters? -/
def hasTripleNL : List Char → Bool
  | a :: b :: c :: rest =>
    (a == '\n' && b == '\n' && c == '\n') || hasTripleNL (b :: c :: rest)
  | _ => false

/-- Number of leading newline characters. -/
def leadNL : List Char → Nat
  | c :: rest => if c == '\n' then leadNL rest + 1 else 0
  | [] => 0

/-- Needle `p` is a prefix of `l` (decidable, by direct scan). -/
def startsWithL : List Char → List Char → Bool
  | [], _ => true
  | _ :: _, [] => false
  | a :: as, b :: bs => a == b && startsWithL as bs

/-- Needle `p` occurs as a contiguous substring of `l`
(Python `p in l`, `re.search` of a literal). -/
def containsSub (p l : List Char) : Bool :=
  (List.range (l.length + 1)).any fun k => startsWithL p (l.drop k)

/-! ## `MarkdownOCRService._contains_math` (markdown_ocr_service.py 151-169)

Each regex of `math_indicators` is translated into an equivalent scan over
the character list; `re.search` semantics (match anywhere) throughout. -/

/-- The operator set of the regex `[=<>≤≥≠±∓×÷∏∑∫∂∇]`. -/
def mathOps : List Char :=
  ['=', '<', '>', '≤', '≥', '≠', '±', '∓', '×', '÷', '∏', '∑', '∫', '∂', '∇']

/-- Some window of three consecutive characters satisfies `p1`, `p2`, `p3`:
used for `\d+/\d+` and `[a-zA-Z]+\^[a-zA-Z0-9]+` (a search match exists
iff a three-character core exists). -/
def hasWindow3 (p1 p2 p3 : Char → Bool) : List Char → Bool
  | a :: b :: c :: rest => (p1 a && p2 b && p3 c) || hasWindow3 p1 p2 p3 (b :: c :: rest)
  | _ => false

/-- Some window of two consecutive characters satisfies `p1`, `p2`:
used for `√[a-zA-Z0-9]+`. -/
def hasWindow2 (p1 p2 : Char → Bool) : List Char → Bool
  | a :: b :: rest => (p1 a && p2 b) || hasWindow2 p1 p2 (b :: rest)
  | _ => false

/-- After an opener and at least one non-dollar character: any later `$`
closes the pair. -/
def latexClose : List Char → Bool
  | [] => false
  | c :: rest => c == '$' || latexClose rest

/-- Directly after an opening `$`: a second `$` immediately restarts the
opener; otherwise one gap character has been seen and `latexClose` looks
for the closing `$`. -/
def latexAfter : List Char → Bool
  | [] => false
  | c :: rest => if c == '$' then latexAfter rest else latexClose rest

/-- Python `re.search(r'\$[^$]+\$', s)`: two dollar signs with at least one
non-dollar character strictly between them. -/
def latexDollar : List Char → Bool
  | [] => false
  | c :: rest => if c == '$' then latexAfter rest else latexDollar rest

/-- One character of the class `[0-9a-zA-Z\s\+\-\*/\^\(\)]`. -/
def isEqClass (c : Char) : Bool :=
  isAlphaA c || isDigitA c || isSpaceA c ||
    c == '+' || c == '-' || c == '*' || c == '/' || c == '^' || c == '(' || c == ')'

/-- Suffix test after a letter for `[a-zA-Z]\s*[=]\s*[0-9a-zA-Z\s\+\-\*/\^\(\)]+`:
skip whitespace, require `=`, then one class character (the class contains
whitespace, so a single following class character suffices). -/
def eqTail : List Char → Bool
  | [] => false
  | c :: rest =>
    if isSpaceA c then eqTail rest
    else if c == '=' then
      match rest with
      | d :: _ => isEqClass d
      | [] => false
    else false

/-- Search for the equation pattern anywhere in the line. -/
def eqScan : List Char → Bool
  | [] => false
  | c :: rest => (isAlphaA c && eqTail rest) || eqScan rest

/-- `MarkdownOCRService._contains_math(text)`: true iff any of the seven
`math_indicators` regexes matches somewhere (all searched with
`re.IGNORECASE`; only the function-name pattern is case-sensitive in the
original text, hence the `Char.toLower` map there). -/
def contains_math (l : List Char) : Bool :=
  l.any (fun c => mathOps.contains c) ||
  hasWindow3 isDigitA (fun c => c == '/') isDigitA l ||
  hasWindow3 isAlphaA (fun c => c == '^') (fun c => isAlphaA c || isDigitA c) l ||
  hasWindow2 (fun c => c == '√') (fun c => isAlphaA c || isDigitA c) l ||
  ((["sin(", "cos(", "tan(", "log(", "ln(", "exp(", "sqrt("].map String.toList).any
    (fun f => containsSub f (l.map Char.toLower))) ||
  latexDollar l ||
  eqScan l

/-! ## `MarkdownOCRService._text_to_markdown` (markdown_ocr_service.py 88-149) -/

/-- Line categories of the structuring heuristic (spec 4.2). -/
inductive LineCat
  | blank
  | header
  | numbered
  | lettered
  | math
  | listItem
  | prose
deriving DecidableEq, Repr

/-- Python `re.match(r'^[A-Z][^.]*[^.]$', line)` on a line without newline
characters: at least two characters, ASCII-uppercase first character, and
no period anywhere after it. -/
def capRe : List Char → Bool
  | [] => false
  | c :: rest => isUpperA c && !(rest == []) && rest.all fun d => !(d == '.')

/-- Python `line.isupper()` (ASCII fragment): at least one letter and no
lowercase letter. -/
def isUpperPy (l : List Char) : Bool :=
  l.any isAlphaA && l.all fun c => !(isLowerA c)

/-- `any(word in line.lower() for word in [...])` of the header heuristic. -/
def containsKW (l : List Char) : Bool :=
  (["question", "problem", "exercise", "part", "section"].map String.toList).any
    fun kw => containsSub kw (l.map Char.toLower)

/-- Python `re.match(r'^\d+[\.)]\s*', line)`. -/
def numberedRe (l : List Char) : Bool :=
  let ds := l.takeWhile isDigitA
  !(ds == []) &&
    match l.drop ds.length with
    | c :: _ => c == '.' || c == ')'
    | [] => false

/-- Python `re.match(r'^[a-z][\.)]\s*', line)`. -/
def letteredRe : List Char → Bool
  | a :: b :: _ => isLowerA a && (b == '.' || b == ')')
  | _ => false

/-- Python `re.match(r'^\(\w+\)\s*', line)`. -/
def parenTok : List Char → Bool
  | '(' :: rest =>
    let ws := rest.takeWhile isWordA
    !(ws == []) &&
      match rest.drop ws.length with
      | c :: _ => c == ')'
      | [] => false
  | _ => false

/-- Python `re.match(r'^[-•*]\s*', line) or re.match(r'^\(\w+\)\s*', line)`. -/
def listRe (l : List Char) : Bool :=
  (match l with
   | c :: _ => c == '-' || c == '•' || c == '*'
   | [] => false) || parenTok l

/-- The classification cascade of `_text_to_markdown`, lines 104-141:
given the whole line list (for the next-line lookahead) and the index,
classify line `i` (after `line.strip()`).  First match wins, in source
order: blank, header, numbered, lettered, math, list, prose. -/
def classifyLine (lines : List (List Char)) (i : Nat) : LineCat :=
  let line := pyStrip (lines.getD i [])
  if line = [] then LineCat.blank
  else if decide (line.length < 100) && decide (i < lines.length - 1) &&
      !(pyStrip (lines.getD (i + 1) []) == []) &&
      (isUpperPy line || containsKW line || capRe line) then LineCat.header
  else if numberedRe line then LineCat.numbered
  else if letteredRe line then LineCat.lettered
  else if contains_math line then LineCat.math
  else if listRe line then LineCat.listItem
  else LineCat.prose

/-- The per-category markdown rendering of `_text_to_markdown` (the string
appended to `markdown_lines` for each branch). -/
def renderLine (cat : LineCat) (line : List Char) : List Char :=
  match cat with
  | LineCat.blank => []
  | LineCat.header => "## ".toList ++ line
  | LineCat.numbered => "### ".toList ++ line
  | LineCat.lettered => "**".toList ++ line ++ "**".toList
  | LineCat.math => '\x60' :: line ++ ['\x60']
  | LineCat.listItem => "- ".toList ++ line
  | LineCat.prose => line

/-- The sentinel returned for empty or whitespace-only input (line 99). -/
def emptySentinel : List Char := "*(Empty page)*".toList

/-- `MarkdownOCRService._text_to_markdown(text)`: empty-input sentinel,
then per-line classify/render, join with newlines, collapse newline runs
of three or more, and strip. -/
def text_to_markdown (text : List Char) : List Char :=
  if pyStrip text = [] then emptySentinel
  else
    let lines := splitNL text
    let md := joinNL ((List.range lines.length).map fun i =>
      renderLine (classifyLine lines i) (pyStrip (lines.getD i [])))
    pyStrip (collapseNL md)

/-! ## `MarkdownOCRService._ocr_page` (markdown_ocr_service.py 55-86)

The rasterization (`get_pixmap`/`tobytes`/`Image.open`) and the three
`pytesseract.image_to_string` calls are external; their outcomes are
oracle fields.  `Except.error` models a raised Python exception. -/

/-- Oracle for one page's OCR: outcome of rasterization and of the three
Tesseract configurations (default; `--psm 6`; `--oem 1 --psm 6`). -/
structure OcrEnv where
  raster : Except (List Char) Unit
  c1 : Except (List Char) (List Char)
  c2 : Except (List Char) (List Char)
  c3 : Except (List Char) (List Char)

/-- `MarkdownOCRService._ocr_page(page)`: outer try/except around
rasterization, inner try/except around the fallback ladder; every raised
exception is swallowed and becomes the empty string. -/
def ocr_page (o : OcrEnv) : List Char :=
  match o.raster with
  | Except.error _ => []
  | Except.ok _ =>
    match o.c1 with
    | Except.error _ => []
    | Except.ok t1 =>
      if pyStrip t1 ≠ [] then t1
      else
        match o.c2 with
        | Except.error _ => []
        | Except.ok t2 =>
          if pyStrip t2 ≠ [] then t2
          else
            match o.c3 with
            | Except.error _ => []
            | Except.ok t3 => t3

/-! ## Data model: problem records and the Firestore oracle -/

/-- `ProblemStatus` (models/problem.py 7-12). -/
inductive PStatus
  | pending
  | processing
  | completed
  | failed
deriving DecidableEq, BEq, Repr

/-- The fields of one external problem record that the pipeline touches. -/
structure Rec where
  status : PStatus
  content : Option (List Char)
  errorMsg : Option (List Char)
deriving DecidableEq, Repr

/-- The problem collection, keyed by problem id (ids modelled as `Nat`). -/
def Db : Type := Nat → Rec

/-- The two field dictionaries the pipeline passes to `update_problem`:
`{'markdown_content': …, 'status': …}` and
`{'status': FAILED, 'error_message': …}`.  (`updated_at` is
server-stamped and not modelled.) -/
inductive Upd
  | contentStatus (content : List Char) (status : PStatus)
  | failedWith (msg : List Char)
deriving DecidableEq, Repr

/-- Firestore `update`: merge the given fields into the record. -/
def applyUpd (pid : Nat) (u : Upd) (db : Db) : Db :=
  fun q =>
    if q = pid then
      match u with
      | Upd.contentStatus c s => { db q with content := some c, status := s }
      | Upd.failedWith m => { db q with status := PStatus.failed, errorMsg := some m }
    else db q

/-- Environment of one background-processing run: external outcomes of
document open, per-page text layers, per-page OCR, the Firestore
connection and its raw update calls (indexed by call number), and the
local file system. -/
structure Env where
  openRes : Except (List Char) Nat
  pageText : Nat → List Char
  ocr : Nat → OcrEnv
  connected : Bool
  updOracle : Nat → Except (List Char) Unit
  fileExists : Bool
  removeOk : Bool
  removeErrMsg : List Char

/-- `FirebaseService.update_problem` (firebase_service.py 171-184): inside
its own try/except it returns `False` when `_db` is absent or the raw
Firestore update raises, `True` on success — it never raises.  The
`Except` result type records that a call *could* raise; this definition
shows it never does. -/
def update_problem (env : Env) (n pid : Nat) (u : Upd) (db : Db) :
    Except (List Char) Bool × Db :=
  if env.connected then
    match env.updOracle n with
    | Except.ok _ => (Except.ok true, applyUpd pid u db)
    | Except.error _ => (Except.ok false, db)
  else (Except.ok false, db)

/-! ## The per-page result sink and the page loop (upload.py 42-94) -/

/-- Observable events of one background-processing run. -/
inductive Ev
  | extract (page : Nat)
  | persist (pid : Nat) (status : PStatus) (ok : Bool)
  | corrective (pid : Nat) (ok : Bool)
  | failWrite (pid : Nat) (ok : Bool)
  | removeFile (ok : Bool)
deriving DecidableEq, BEq, Repr

/-- Status chosen at upload.py lines 53-59: both branches of the
`if markdown_content and markdown_content.strip() and
markdown_content != "*(Empty page)*"` test assign `COMPLETED`. -/
def pageStatusOf (md : List Char) : PStatus :=
  if md ≠ [] ∧ pyStrip md ≠ [] ∧ md ≠ emptySentinel then PStatus.completed
  else PStatus.completed

/-- `markdown_content or "*(No text extracted - …)*"` (line 63). -/
def noTextMsg : List Char :=
  "*(No text extracted - PDF may contain images or complex formatting)*".toList

/-- Fallback content: Python `or` on a string is the right operand exactly
when the string is empty. -/
def contentFor (md : List Char) : List Char :=
  if md = [] then noTextMsg else md

/-- `f"Database update failed: {str(db_error)}"` (line 75). -/
def dbFailMsg (e : List Char) : List Char := "Database update failed: ".toList ++ e

/-- Result of committing one page's outcome. -/
structure SinkOut where
  nextN : Nat
  db : Db
  evs : List Ev
  corrective : Nat

/-- Result-sink commit for one page (upload.py 53-78): build the update
dict, try the external write; only if that call *raises* does the
corrective `failed` write fire, itself wrapped in try/except-pass. -/
def sinkCommit (env : Env) (n pid : Nat) (md : List Char) (db : Db) : SinkOut :=
  match update_problem env n pid (Upd.contentStatus (contentFor md) (pageStatusOf md)) db with
  | (Except.ok b, db1) => ⟨n + 1, db1, [Ev.persist pid (pageStatusOf md) b], 0⟩
  | (Except.error e, db1) =>
    match update_problem env (n + 1) pid (Upd.failedWith (dbFailMsg e)) db1 with
    | (Except.ok b2, db2) =>
      ⟨n + 2, db2, [Ev.persist pid (pageStatusOf md) false, Ev.corrective pid b2], 1⟩
    | (Except.error _, db2) =>
      ⟨n + 2, db2, [Ev.persist pid (pageStatusOf md) false, Ev.corrective pid false], 1⟩

/-- The `for i, (page_num, markdown_content) in enumerate(page_results)`
loop (lines 49-78): consume one problem id per result; results beyond
`len(problem_ids_with_pages)` are skipped by the `if i < len(...)` guard. -/
def persistLoop (env : Env) :
    List (Nat × List Char) → List Nat → Nat → Db → Nat × Db × List Ev
  | [], _, n, db => (n, db, [])
  | _ :: rest, [], n, db => persistLoop env rest [] n db
  | (_, md) :: rest, pid :: ids, n, db =>
    let s := sinkCommit env n pid md db
    let (n', db', evs') := persistLoop env rest ids s.nextN s.db
    (n', db', s.evs ++ evs')

/-- The `except` block of `process_uploaded_file_pages` (lines 86-94):
write `failed` plus the error message to *every* problem id, each write
wrapped in try/except-pass. -/
def failAll (env : Env) (msg : List Char) :
    List Nat → Nat → Db → Nat × Db × List Ev
  | [], n, db => (n, db, [])
  | pid :: rest, n, db =>
    match update_problem env n pid (Upd.failedWith msg) db with
    | (Except.ok b, db') =>
      let (n', db'', evs) := failAll env msg rest (n + 1) db'
      (n', db'', Ev.failWrite pid b :: evs)
    | (Except.error _, db') =>
      let (n', db'', evs) := failAll env msg rest (n + 1) db'
      (n', db'', Ev.failWrite pid false :: evs)

/-! ## `MarkdownOCRService.convert_pdf_to_markdown` (markdown_ocr_service.py 20-53) -/

/-- `f"PDF to markdown conversion failed: {str(e)}"` (line 53). -/
def convErrPrefix : List Char := "PDF to markdown conversion failed: ".toList

/-- One loop iteration (lines 34-48): text layer, OCR fallback when the
text layer is whitespace-only, then `_text_to_markdown(page_text.strip())`. -/
def convertPageMd (env : Env) (p : Nat) : List Char :=
  let t := env.pageText p
  let t := if pyStrip t = [] then ocr_page (env.ocr p) else t
  text_to_markdown (pyStrip t)

/-- `convert_pdf_to_markdown(file_path)`: on open failure the whole call
raises `OCRError` with the prefixed message and no page is processed;
otherwise it returns `(page_num + 1, markdown)` for every page, emitting
one `extract` event per page.  (The per-page text layer is modelled as a
total oracle, so only the document open can raise here.) -/
def convert_pdf_to_markdown (env : Env) :
    Except (List Char) (List (Nat × List Char)) × List Ev :=
  match env.openRes with
  | Except.error e => (Except.error (convErrPrefix ++ e), [])
  | Except.ok n =>
    (Except.ok ((List.range n).map fun p => (p + 1, convertPageMd env p)),
     (List.range n).map fun p => Ev.extract (p + 1))

/-! ## `process_uploaded_file_pages` (upload.py 42-94) -/

/-- Result of one background-processing run: final record states, the
event trace, and whether the local file was removed. -/
structure ProcOut where
  db : Db
  trace : List Ev
  removed : Bool

/-- `process_uploaded_file_pages(file_path, problem_ids_with_pages, user_id)`:
the outer try runs conversion, the persist loop, and the cleanup
(`os.path.exists`/`os.remove`, lines 80-82, *inside* the try); any
exception escaping the try — conversion failure or a failing remove —
runs the fail-all block over every problem id. -/
def process_uploaded_file_pages (env : Env) (ids : List Nat) (db : Db) : ProcOut :=
  match convert_pdf_to_markdown env with
  | (Except.error e, evs) =>
    let (_, db', fevs) := failAll env e ids 0 db
    ⟨db', evs ++ fevs, false⟩
  | (Except.ok results, evs) =>
    let (n, db', pevs) := persistLoop env results ids 0 db
    if env.fileExists then
      if env.removeOk then ⟨db', evs ++ pevs ++ [Ev.removeFile true], true⟩
      else
        let (_, db'', fevs) := failAll env env.removeErrMsg ids n db'
        ⟨db'', evs ++ pevs ++ Ev.removeFile false :: fevs, false⟩
    else ⟨db', evs ++ pevs, false⟩

/-- A successful write of a terminal status (`completed` or `failed`) for
problem `pid`. -/
def isTerminalWrite (pid : Nat) : Ev → Bool
  | Ev.persist p s ok => p == pid && (s == PStatus.completed || s == PStatus.failed) && ok
  | Ev.failWrite p ok => p == pid && ok
  | _ => false

/-- A successful terminal-status write for any problem. -/
def isTerminalWriteAny : Ev → Bool
  | Ev.persist _ s ok => (s == PStatus.completed || s == PStatus.failed) && ok
  | Ev.failWrite _ ok => ok
  | _ => false

/-- Number of successful terminal-status writes for problem `pid` in a trace. -/
def terminalWriteCount (t : List Ev) (pid : Nat) : Nat :=
  t.countP fun e => isTerminalWrite pid e

/-- Is the event a page-extraction event? -/
def isExtract : Ev → Bool
  | Ev.extract _ => true
  | _ => false

/-- Is the event any external record write? -/
def isRecordWrite : Ev → Bool
  | Ev.persist _ _ _ => true
  | Ev.corrective _ _ => true
  | Ev.failWrite _ _ => true
  | _ => false

/-! ## `get_pdf_page_count` and the upload handler (upload.py 30-39, 190-255) -/

/-- `get_pdf_page_count(file_path)`: the page count, or 1 if
`fitz.open`/`page_count` raises. -/
def get_pdf_page_count (openRes : Except (List Char) Nat) : Nat :=
  match openRes with
  | Except.ok n => n
  | Except.error _ => 1

/-- Observable outcome of the `/upload` handler's planning phase. -/
structure UploadOut where
  total_pages : Nat
  problemIds : List Nat
  dispatched : Bool

/-- The multi-problem upload handler after the file is saved (lines
190-255): take the page count, create one problem record per page
(problem ids modelled by their 1-based page number), and unconditionally
dispatch `process_uploaded_file_pages` as a background task. -/
def upload_pdf (openRes : Except (List Char) Nat) : UploadOut :=
  let pc := get_pdf_page_count openRes
  ⟨pc, List.range' 1 pc, true⟩

/-! ## Concrete environments used by witnesses and counterexamples -/

/-- Initial record: every problem starts `pending` with no content. -/
def db0 : Db := fun _ => ⟨PStatus.pending, none, none⟩

/-- OCR oracle that finds nothing and never raises. -/
def ocrNone : OcrEnv := ⟨Except.ok (), Except.ok [], Except.ok [], Except.ok []⟩

/-- Benign environment: one page with text layer `"Hi"`, store connected,
all raw updates succeed, file present, removal succeeds. -/
def envBase : Env :=
  { openRes := Except.ok 1
    pageText := fun _ => ['H', 'i']
    ocr := fun _ => ocrNone
    connected := true
    updOracle := fun _ => Except.ok ()
    fileExists := true
    removeOk := true
    removeErrMsg := "Permission denied".toList }

/-- As `envBase` but the Firestore client is absent (`_db` is `None`), so
every `update_problem` returns `False`. -/
def envNoDb : Env := { envBase with connected := false }

/-- As `envBase` but `os.remove` raises after all pages completed. -/
def envRemoveFail : Env := { envBase with removeOk := false }

/-- As `envBase` but `fitz.open` raises, so no page is processed. -/
def envOpenFail : Env := { envBase with openRes := Except.error "cannot open document".toList }

/-- As `envBase` but with two pages. -/
def envTwoPages : Env := { envBase with openRes := Except.ok 2 }

/-! ## Spec-side comparison definitions (claim wording, for equivalence
against the source-derived classifier) -/

/-- Claim wording of the third header disjunct: starts with a capital
letter, has no interior period, and does not end with a period.  (The
source uses `re.match(r'^[A-Z][^.]*[^.]$', line)`; this definition follows
the claim's words, to be compared with `capRe`.) -/
def specCapLine : List Char → Bool
  | [] => false
  | [c] => isUpperA c
  | c :: rest => isUpperA c && rest.dropLast.all (fun d => !(d == '.')) &&
      !(rest.getLastD ' ' == '.')

/-- Claim wording of the header condition for line `i` of `lines`: shorter
than 100 characters, not the last line, followed by a non-blank line, and
all-uppercase or keyword-bearing or capital-without-periods. -/
def specHeaderCond (lines : List (List Char)) (i : Nat) : Prop :=
  let line := pyStrip (lines.getD i [])
  line.length < 100 ∧ i + 1 < lines.length ∧ pyStrip (lines.getD (i + 1) []) ≠ [] ∧
    (isUpperPy line = true ∨ containsKW line = true ∨ specCapLine line = true)

/-! ## Helper lemmas -/

/-- `FirebaseService.update_problem` never raises: its whole body is
wrapped in try/except and both paths `return` a boolean. -/
theorem update_problem_never_raises (env : Env) (n pid : Nat) (u : Upd) (db : Db) :
    ∃ b db', update_problem env n pid u db = (Except.ok b, db') := by
  unfold update_problem
  cases h : env.connected
  · simp
  · cases ho : env.updOracle n <;> simp

/-- When the store is connected and the raw call succeeds, `update_problem`
returns `True` and applies the merge. -/
theorem update_problem_applies (env : Env) (n pid : Nat) (u : Upd) (db : Db)
    (hc : env.connected = true) (ho : env.updOracle n = Except.ok ()) :
    update_problem env n pid u db = (Except.ok true, applyUpd pid u db) := by
  simp [update_problem, hc, ho]

/-- Both branches of the content test assign `COMPLETED` (upload.py 53-59). -/
theorem pageStatusOf_eq (md : List Char) : pageStatusOf md = PStatus.completed := by
  unfold pageStatusOf
  split <;> rfl

/-- The sink's first write never raises, so its `evs` consist of the single
persist event. -/
theorem sinkCommit_evs (env : Env) (n pid : Nat) (md : List Char) (db : Db) :
    ∃ b, (sinkCommit env n pid md db).evs = [Ev.persist pid (pageStatusOf md) b] := by
  obtain ⟨b, db', h⟩ := update_problem_never_raises env n pid
    (Upd.contentStatus (contentFor md) (pageStatusOf md)) db
  refine ⟨b, ?_⟩
  unfold sinkCommit
  rw [h]

/-- Closed form of the fail-all block when the store is connected and every
raw update succeeds: the counter advances by one per id, every id's record
is overwritten with `failed` plus the message, and one successful
`failWrite` event is emitted per id. -/
theorem failAll_spec (env : Env) (msg : List Char) (hc : env.connected = true)
    (ho : ∀ k, env.updOracle k = Except.ok ()) :
    ∀ (ids : List Nat) (n : Nat) (db : Db),
      failAll env msg ids n db =
        (n + ids.length,
         fun q => if q ∈ ids then
             { db q with status := PStatus.failed, errorMsg := some msg }
           else db q,
         ids.map fun pid => Ev.failWrite pid true) := by
  intro ids
  induction ids with
  | nil =>
    intro n db
    simp [failAll]
  | cons pid rest ih =>
    intro n db
    have hu := update_problem_applies env n pid (Upd.failedWith msg) db hc (ho n)
    simp only [failAll, hu, ih (n + 1) (applyUpd pid (Upd.failedWith msg) db)]
    refine Prod.ext ?_ (Prod.ext ?_ ?_)
    · simp [List.length_cons]
      omega
    · funext q
      by_cases hq : q ∈ pid :: rest
      · rcases List.mem_cons.mp hq with h | h
        · subst h
          by_cases hr : q ∈ rest <;> simp [hq, hr, applyUpd]
        · simp [hq, h, applyUpd]
          by_cases hpq : q = pid <;> simp [hpq, applyUpd]
      · have h1 : q ≠ pid := fun h => hq (h ▸ List.mem_cons_self pid rest)
        have h2 : q ∉ rest := fun h => hq (List.mem_cons_of_mem _ h)
        simp [hq, h1, h2, applyUpd]
    · simp


/-- Closed form of the persist loop when the store is connected and every
raw update succeeds: one problem id is consumed per page result, each
consumed id gets exactly one successful `completed` persist event. -/
theorem persistLoop_spec (env : Env) (hc : env.connected = true)
    (ho : ∀ k, env.updOracle k = Except.ok ()) :
    ∀ (results : List (Nat × List Char)) (ids : List Nat) (n : Nat) (db : Db),
      ∃ dbP, persistLoop env results ids n db =
        (n + (results.zip ids).length, dbP,
         (results.zip ids).map fun r => Ev.persist r.2 PStatus.completed true) := by
  intro results
  induction results with
  | nil =>
    intro ids n db
    exact ⟨db, by simp [persistLoop]⟩
  | cons r rest ih =>
    intro ids n db
    cases ids with
    | nil =>
      obtain ⟨dbP, h⟩ := ih [] n db
      cases r with
      | mk pg md => exact ⟨dbP, by simpa [persistLoop] using h⟩
    | cons pid ids' =>
      cases r with
      | mk pg md =>
        have hu := update_problem_applies env n pid
          (Upd.contentStatus (contentFor md) PStatus.completed) db hc (ho n)
        obtain ⟨dbP, h⟩ := ih ids' (n + 1)
          (applyUpd pid (Upd.contentStatus (contentFor md) PStatus.completed) db)
        refine ⟨dbP, ?_⟩
        simp only [persistLoop, sinkCommit, pageStatusOf_eq, hu, h, List.zip_cons_cons,
          List.length_cons, List.map_cons, List.singleton_append]
        refine Prod.ext ?_ rfl
        simp only []
        omega

/-- Every event produced by the persist loop is a record write (never an
extraction event). -/
theorem persistLoop_no_extract (env : Env) :
    ∀ (results : List (Nat × List Char)) (ids : List Nat) (n : Nat) (db : Db),
      ∀ ev ∈ (persistLoop env results ids n db).2.2, isExtract ev = false := by
  intro results
  induction results with
  | nil => intro ids n db ev h; simp [persistLoop] at h
  | cons r rest ih =>
    intro ids n db ev h
    cases ids with
    | nil =>
      cases r with
      | mk pg md =>
        simp only [persistLoop] at h
        exact ih [] n db ev h
    | cons pid ids' =>
      cases r with
      | mk pg md =>
        simp only [persistLoop] at h
        rcases List.mem_append.mp h with h1 | h1
        · obtain ⟨b, hb⟩ := sinkCommit_evs env n pid md db
          rw [hb] at h1
          simp only [List.mem_singleton] at h1
          subst h1
          rfl
        · exact ih ids' _ _ ev h1

/-- Every event produced by the fail-all block is a record write. -/
theorem failAll_no_extract (env : Env) (msg : List Char) :
    ∀ (ids : List Nat) (n : Nat) (db : Db),
      ∀ ev ∈ (failAll env msg ids n db).2.2, isExtract ev = false := by
  intro ids
  induction ids with
  | nil => intro n db ev h; simp [failAll] at h
  | cons pid rest ih =>
    intro n db ev h
    obtain ⟨b, db', hu⟩ := update_problem_never_raises env n pid (Upd.failedWith msg) db
    simp only [failAll, hu, List.mem_cons] at h
    rcases h with h | h
    · subst h; rfl
    · exact ih _ _ ev h

/-! ## Claim C1 -/

/-- Claim C1, counterexample: with the Firestore client absent the first
external write does not succeed (`update_problem` returns `False`), yet
the sink performs zero corrective writes — the corrective write fires only
when the call raises, which `update_problem` never does.  This refutes
"the corrective write must fire whenever the first update does not
succeed". -/
theorem c1_counterexample :
    (update_problem envNoDb 0 1 (Upd.contentStatus ['H', 'i'] PStatus.completed) db0).1 =
      Except.ok false ∧
    (sinkCommit envNoDb 0 1 ['H', 'i'] db0).corrective = 0 := by
  exact ⟨rfl, rfl⟩

/-- Claim C1, amended: the Result Sink's corrective write fires only when
the first external write raises; since `FirebaseService.update_problem`
catches its own failures and returns `False` instead of raising, the sink
performs no corrective write on any input, and no exception escapes the
sink (every store call evaluates to an `Except.ok` boolean). -/
theorem c1_sink_never_corrects (env : Env) (n pid : Nat) (md : List Char) (db : Db) :
    (sinkCommit env n pid md db).corrective = 0 ∧
    ∀ (m q : Nat) (u : Upd) (db' : Db),
      ∃ b dbo, update_problem env m q u db' = (Except.ok b, dbo) := by
  constructor
  · obtain ⟨b, db1, h⟩ := update_problem_never_raises env n pid
      (Upd.contentStatus (contentFor md) (pageStatusOf md)) db
    unfold sinkCommit
    rw [h]
  · intro m q u db'
    exact update_problem_never_raises env m q u db'

/-! ## Claim C2 -/

/-- Claim C2, counterexample: one page completes (successful `completed`
persist), then `os.remove` raises; the orchestrator's except block writes
`failed` to the already-completed job — a job that was *not* pending when
the orchestrator threw still transitions to `failed`, refuting "every
PageJob still pending — and only the pending ones — transitions to
`failed`". -/
theorem c2_counterexample :
    (process_uploaded_file_pages envRemoveFail [1] db0).trace =
      [Ev.extract 1, Ev.persist 1 PStatus.completed true, Ev.removeFile false,
       Ev.failWrite 1 true] ∧
    ((process_uploaded_file_pages envRemoveFail [1] db0).db 1).status = PStatus.failed := by
  exact ⟨by decide, by decide⟩

/-- Claim C2, amended: when the orchestrator's try block throws (here: the
document cannot be opened, so no page was processed), the except block
writes `failed` with the same non-empty error detail to *every* problem id
in the list — which in the open-failure case is exactly the set of pending
jobs.  (When the throw happens after pages completed, the same loop also
overwrites completed jobs; see the counterexample.) -/
theorem c2_fan_out (env : Env) (ids : List Nat) (db : Db) (e : List Char)
    (hopen : env.openRes = Except.error e) (hc : env.connected = true)
    (ho : ∀ k, env.updOracle k = Except.ok ()) :
    (process_uploaded_file_pages env ids db).trace =
      (ids.map fun q => Ev.failWrite q true) ∧
    convErrPrefix ++ e ≠ [] ∧
    ∀ pid ∈ ids,
      ((process_uploaded_file_pages env ids db).db pid).status = PStatus.failed ∧
      ((process_uploaded_file_pages env ids db).db pid).errorMsg =
        some (convErrPrefix ++ e) := by
  have hconv : convert_pdf_to_markdown env = (Except.error (convErrPrefix ++ e), []) := by
    simp [convert_pdf_to_markdown, hopen]
  have hfail := failAll_spec env (convErrPrefix ++ e) hc ho ids 0 db
  have hpre : convErrPrefix ≠ [] := by decide
  refine ⟨?_, ?_, ?_⟩
  · simp only [process_uploaded_file_pages, hconv, hfail]
    simp
  · intro hcontra
    exact hpre (List.append_eq_nil.mp hcontra).1
  · intro pid hpid
    simp only [process_uploaded_file_pages, hconv, hfail]
    simp [hpid]

/-- Witness for `c2_fan_out` at a concrete open-failure environment. -/
theorem c2_fan_out_witness :
    ((process_uploaded_file_pages envOpenFail [1] db0).db 1).status = PStatus.failed ∧
    ((process_uploaded_file_pages envOpenFail [1] db0).db 1).errorMsg =
      some (convErrPrefix ++ "cannot open document".toList) := by
  exact (c2_fan_out envOpenFail [1] db0 "cannot open document".toList rfl rfl
    (fun _ => rfl)).2.2 1 (List.mem_singleton.mpr rfl)

/-! ## Claim C3 -/

/-- Claim C3, counterexample: one page, one problem id, every persistence
write succeeds, but `os.remove` raises after the page completed; the job
then receives a second (failed) terminal write, so the number of
successful terminal-status writes is 2 while the page count is 1 —
refuting "each PageJob reaches a terminal status exactly once and the
number of terminal-status transitions equals the page count". -/
theorem c3_counterexample :
    terminalWriteCount (process_uploaded_file_pages envRemoveFail [1] db0).trace 1 = 2 ∧
    get_pdf_page_count (Except.ok 1) = 1 := by
  exact ⟨by decide, rfl⟩

/-- Claim C3, amended: provided the orchestrator's try block does not throw
after the loop (document opens, and cleanup does not raise) and every
persistence write succeeds, each of the `n` problem ids receives exactly
one successful terminal-status write (`completed`), and the total number
of successful terminal-status writes equals the page count `n` — including
runs where OCR fails on some or all pages, since OCR failure is swallowed
into empty text and still yields a `completed` write. -/
theorem c3_terminal_once (env : Env) (ids : List Nat) (db : Db) (n : Nat)
    (hopen : env.openRes = Except.ok n) (hlen : ids.length = n) (hnd : ids.Nodup)
    (hc : env.connected = true) (ho : ∀ k, env.updOracle k = Except.ok ())
    (hrm : env.removeOk = true) :
    (∀ pid ∈ ids, terminalWriteCount (process_uploaded_file_pages env ids db).trace pid = 1) ∧
    (process_uploaded_file_pages env ids db).trace.countP
      (fun ev => isTerminalWriteAny ev) = n := by
  have hconv : convert_pdf_to_markdown env =
      (Except.ok ((List.range n).map fun p => (p + 1, convertPageMd env p)),
       (List.range n).map fun p => Ev.extract (p + 1)) := by
    simp [convert_pdf_to_markdown, hopen]
  obtain ⟨dbP, hp⟩ := persistLoop_spec env hc ho
    ((List.range n).map fun p => (p + 1, convertPageMd env p)) ids 0 db
  have hziplen :
      ((((List.range n).map fun p => (p + 1, convertPageMd env p)).zip ids)).length = n := by
    simp [hlen]
  have hsnd :
      ((((List.range n).map fun p => (p + 1, convertPageMd env p)).zip ids)).map Prod.snd
        = ids := by
    apply List.map_snd_zip
    simp [hlen]
  have htail : ∃ tail, (process_uploaded_file_pages env ids db).trace =
      ((List.range n).map fun p => Ev.extract (p + 1)) ++
      (((((List.range n).map fun p => (p + 1, convertPageMd env p)).zip ids)).map
        fun r => Ev.persist r.2 PStatus.completed true) ++ tail ∧
      tail.countP (fun ev => isTerminalWriteAny ev) = 0 ∧
      ∀ pid, tail.countP (fun ev => isTerminalWrite pid ev) = 0 := by
    cases hf : env.fileExists
    · refine ⟨[], ?_, rfl, fun _ => rfl⟩
      simp only [process_uploaded_file_pages, hconv, hp, hf]
      simp
    · refine ⟨[Ev.removeFile true], ?_, rfl, fun _ => rfl⟩
      simp only [process_uploaded_file_pages, hconv, hp, hf, hrm]
      simp
  obtain ⟨tail, htr, htany, htpid⟩ := htail
  have hext0 : ∀ (p : Ev → Bool), (∀ q : Nat, p (Ev.extract (q + 1)) = false) →
      (((List.range n).map fun q => Ev.extract (q + 1)).countP p) = 0 := by
    intro p hp0
    rw [List.countP_map]
    apply List.countP_eq_zero.mpr
    intro a _
    simp [hp0 a]
  constructor
  · intro pid hpid
    unfold terminalWriteCount
    rw [htr]
    rw [List.countP_append, List.countP_append]
    have h1 : (((List.range n).map fun p => Ev.extract (p + 1)).countP
        (fun ev => isTerminalWrite pid ev)) = 0 := hext0 _ (fun q => rfl)
    have h2 : (((((List.range n).map fun p => (p + 1, convertPageMd env p)).zip ids)).map
        (fun r => Ev.persist r.2 PStatus.completed true)).countP
          (fun ev => isTerminalWrite pid ev) = 1 := by
      rw [List.countP_map]
      have heq : ((fun ev => isTerminalWrite pid ev) ∘
          fun (r : (Nat × List Char) × Nat) => Ev.persist r.2 PStatus.completed true)
          = ((fun q => q == pid) ∘ (Prod.snd : (Nat × List Char) × Nat → Nat)) := by
        funext r
        show isTerminalWrite pid (Ev.persist r.2 PStatus.completed true) = (r.2 == pid)
        cases hc2 : r.2 == pid <;> simp only [isTerminalWrite, hc2] <;> rfl
      rw [heq]
      have := List.countP_map (fun q => q == pid)
        (Prod.snd : (Nat × List Char) × Nat → Nat)
        ((((List.range n).map fun p => (p + 1, convertPageMd env p)).zip ids))
      rw [hsnd] at this
      rw [← this]
      have hcount : ids.count pid = 1 := List.count_eq_one_of_mem hnd hpid
      simpa [List.count] using hcount
    rw [h1, h2, htpid pid]
  · rw [htr]
    rw [List.countP_append, List.countP_append]
    have h1 : (((List.range n).map fun p => Ev.extract (p + 1)).countP
        (fun ev => isTerminalWriteAny ev)) = 0 := hext0 _ (fun q => rfl)
    have h2 : (((((List.range n).map fun p => (p + 1, convertPageMd env p)).zip ids)).map
        (fun r => Ev.persist r.2 PStatus.completed true)).countP
          (fun ev => isTerminalWriteAny ev) = n := by
      rw [List.countP_map]
      have : ∀ r : (Nat × List Char) × Nat,
          ((fun ev => isTerminalWriteAny ev) ∘
            fun (r : (Nat × List Char) × Nat) => Ev.persist r.2 PStatus.completed true) r
            = true := by
        intro r
        rfl
      calc ((((List.range n).map fun p => (p + 1, convertPageMd env p)).zip ids)).countP _
          = ((((List.range n).map fun p => (p + 1, convertPageMd env p)).zip ids)).length :=
            List.countP_eq_length.mpr (fun a _ => this a)
        _ = n := hziplen
    rw [h1, h2, htany]
    omega

/-- Witness for `c3_terminal_once` at the benign one-page environment. -/
theorem c3_terminal_once_witness :
    terminalWriteCount (process_uploaded_file_pages envBase [1] db0).trace 1 = 1 :=
  (c3_terminal_once envBase [1] db0 1 rfl rfl (List.nodup_singleton 1) rfl
    (fun _ => rfl) rfl).1 1 (List.mem_singleton.mpr rfl)

/-! ## Claim C4 -/

/-- Claim C4, counterexample: with two pages, the trace shows the
extraction of page 2 happening strictly before the persistence write of
page 1 — refuting "for every pair of pages i < j, the persistence write
for page i happens before the extraction work of page j finishes".  The
loop in `convert_pdf_to_markdown` extracts and renders every page before
any persistence write occurs. -/
theorem c4_counterexample :
    (process_uploaded_file_pages envTwoPages [1, 2] db0).trace =
      [Ev.extract 1, Ev.extract 2, Ev.persist 1 PStatus.completed true,
       Ev.persist 2 PStatus.completed true, Ev.removeFile true] ∧
    (process_uploaded_file_pages envTwoPages [1, 2] db0).trace.indexOf (Ev.extract 2) <
      (process_uploaded_file_pages envTwoPages [1, 2] db0).trace.indexOf
        (Ev.persist 1 PStatus.completed true) := by
  exact ⟨by decide, by decide⟩

/-- Claim C4, amended: in multi-problem mode the trace splits into a
prefix of extraction events and a suffix of record writes: every page's
extraction-classification-render work completes before any page's outcome
is persisted; persistence then proceeds in page order. -/
theorem c4_extraction_precedes_persistence (env : Env) (ids : List Nat) (db : Db) (n : Nat)
    (hopen : env.openRes = Except.ok n) :
    ∃ t1 t2, (process_uploaded_file_pages env ids db).trace = t1 ++ t2 ∧
      (∀ ev ∈ t1, isExtract ev = true) ∧ (∀ ev ∈ t2, isExtract ev = false) := by
  have hconv : convert_pdf_to_markdown env =
      (Except.ok ((List.range n).map fun p => (p + 1, convertPageMd env p)),
       (List.range n).map fun p => Ev.extract (p + 1)) := by
    simp [convert_pdf_to_markdown, hopen]
  have hextr : ∀ ev ∈ (List.range n).map fun p => Ev.extract (p + 1), isExtract ev = true := by
    intro ev hev
    obtain ⟨p, _, hp⟩ := List.mem_map.mp hev
    rw [← hp]
    rfl
  rcases hpl : persistLoop env ((List.range n).map fun p => (p + 1, convertPageMd env p))
      ids 0 db with ⟨m, dbp, pevs⟩
  have hpevs : ∀ ev ∈ pevs, isExtract ev = false := by
    intro ev hev
    have := persistLoop_no_extract env
      ((List.range n).map fun p => (p + 1, convertPageMd env p)) ids 0 db ev
    rw [hpl] at this
    exact this hev
  cases hf : env.fileExists
  · refine ⟨(List.range n).map fun p => Ev.extract (p + 1), pevs, ?_, hextr, hpevs⟩
    simp only [process_uploaded_file_pages, hconv, hpl, hf]
    simp
  · cases hr : env.removeOk
    · rcases hfa : failAll env env.removeErrMsg ids m dbp with ⟨m2, db2, fevs⟩
      have hfevs : ∀ ev ∈ fevs, isExtract ev = false := by
        intro ev hev
        have := failAll_no_extract env env.removeErrMsg ids m dbp ev
        rw [hfa] at this
        exact this hev
      refine ⟨(List.range n).map fun p => Ev.extract (p + 1),
        pevs ++ Ev.removeFile false :: fevs, ?_, hextr, ?_⟩
      · simp only [process_uploaded_file_pages, hconv, hpl, hf, hr, hfa]
        simp
      · intro ev hev
        rcases List.mem_append.mp hev with h | h
        · exact hpevs ev h
        · rcases List.mem_cons.mp h with h | h
          · subst h; rfl
          · exact hfevs ev h
    · refine ⟨(List.range n).map fun p => Ev.extract (p + 1),
        pevs ++ [Ev.removeFile true], ?_, hextr, ?_⟩
      · simp only [process_uploaded_file_pages, hconv, hpl, hf, hr]
        simp
      · intro ev hev
        rcases List.mem_append.mp hev with h | h
        · exact hpevs ev h
        · rcases List.mem_singleton.mp h with h
          subst h; rfl

/-- Witness for `c4_extraction_precedes_persistence` at the two-page
environment. -/
theorem c4_extraction_precedes_persistence_witness :
    ∃ t1 t2, (process_uploaded_file_pages envTwoPages [1, 2] db0).trace = t1 ++ t2 ∧
      (∀ ev ∈ t1, isExtract ev = true) ∧ (∀ ev ∈ t2, isExtract ev = false) :=
  c4_extraction_precedes_persistence envTwoPages [1, 2] db0 2 rfl

/-! ## Claim C5 -/

/-- Claim C5, counterexample: when the document open raises, the except
path of `process_uploaded_file_pages` performs no file removal — the
cleanup (upload.py 80-82) sits inside the try block, not in a finally —
refuting "on every exit path the local temporary document file is
removed". -/
theorem c5_counterexample :
    envOpenFail.fileExists = true ∧
    (process_uploaded_file_pages envOpenFail [1] db0).removed = false := by
  exact ⟨rfl, by decide⟩

/-- Claim C5, amended: on normal completion (document opens, file present,
removal succeeds) the file is removed, and the removal is the final event
of the trace — in particular it happens only after the per-page loop has
finished, never while any job's write is still pending; on the exception
path (document open fails) the file is not removed at all. -/
theorem c5_cleanup_after_loop (env envE : Env) (ids : List Nat) (db : Db) (n : Nat)
    (e : List Char) :
    (env.openRes = Except.ok n → env.fileExists = true → env.removeOk = true →
      (process_uploaded_file_pages env ids db).removed = true ∧
      ∃ t1, (process_uploaded_file_pages env ids db).trace = t1 ++ [Ev.removeFile true]) ∧
    (envE.openRes = Except.error e →
      (process_uploaded_file_pages envE ids db).removed = false) := by
  constructor
  · intro hopen hf hr
    have hconv : convert_pdf_to_markdown env =
        (Except.ok ((List.range n).map fun p => (p + 1, convertPageMd env p)),
         (List.range n).map fun p => Ev.extract (p + 1)) := by
      simp [convert_pdf_to_markdown, hopen]
    rcases hpl : persistLoop env ((List.range n).map fun p => (p + 1, convertPageMd env p))
        ids 0 db with ⟨m, dbp, pevs⟩
    constructor
    · simp only [process_uploaded_file_pages, hconv, hpl, hf, hr]
      simp
    · refine ⟨((List.range n).map fun p => Ev.extract (p + 1)) ++ pevs, ?_⟩
      simp only [process_uploaded_file_pages, hconv, hpl, hf, hr]
      simp
  · intro hopen
    have hconv : convert_pdf_to_markdown envE =
        (Except.error (convErrPrefix ++ e), []) := by
      simp [convert_pdf_to_markdown, hopen]
    rcases hfa : failAll envE (convErrPrefix ++ e) ids 0 db with ⟨m2, db2, fevs⟩
    simp only [process_uploaded_file_pages, hconv, hfa]

/-- Witness for `c5_cleanup_after_loop` at concrete environments. -/
theorem c5_cleanup_after_loop_witness :
    (process_uploaded_file_pages envBase [1] db0).removed = true ∧
    (process_uploaded_file_pages envOpenFail [1] db0).removed = false := by
  have h := c5_cleanup_after_loop envBase envOpenFail [1] db0 1 "cannot open document".toList
  exact ⟨(h.1 rfl rfl rfl).1, h.2 rfl⟩

/-! ## Claim C6 -/

/-- Claim C6: for every raw page text that is empty or whitespace-only,
`_text_to_markdown` returns exactly the sentinel `*(Empty page)*` without
running the line pipeline, and the sink's status for that content is still
`completed`, not `failed` (upload.py assigns `COMPLETED` in both branches
of its content test). -/
theorem c6_empty_page_sentinel_completed (text : List Char) (h : pyStrip text = []) :
    text_to_markdown text = emptySentinel ∧
    pageStatusOf (text_to_markdown text) = PStatus.completed := by
  refine ⟨?_, pageStatusOf_eq _⟩
  simp [text_to_markdown, h]

/-- Witness for `c6_empty_page_sentinel_completed` on a whitespace-only
page text. -/
theorem c6_empty_page_sentinel_completed_witness :
    text_to_markdown [' ', '\t', ' '] = emptySentinel ∧
    pageStatusOf (text_to_markdown [' ', '\t', ' ']) = PStatus.completed :=
  c6_empty_page_sentinel_completed [' ', '\t', ' '] (by decide)

/-! ## Claim C7 -/

/-- Claim C7, counterexample: all three OCR configurations yield nothing
(empty or whitespace-only), yet `_ocr_page` returns the third
configuration's whitespace string verbatim (line 78 `return text  # Return
even if empty`), not the empty string — refuting "returns the empty string
when all three yield nothing". -/
theorem c7_counterexample :
    ocr_page ⟨Except.ok (), Except.ok [], Except.ok [], Except.ok [' ']⟩ = [' '] ∧
    pyStrip [' '] = [] ∧ ([' '] : List Char) ≠ [] := by
  exact ⟨by decide, by decide, by decide⟩

/-- Claim C7, amended: `_ocr_page` never fails its caller — every raised
exception (rasterization or any OCR call) is swallowed into the empty
string; the ladder accepts the first of the three configurations whose
result has non-whitespace content and returns it verbatim, and when the
first two results are empty or whitespace-only it returns the *third
configuration's result verbatim*, which may be a whitespace string rather
than the empty string. -/
theorem c7_ocr_fallback_ladder (o : OcrEnv) (t1 t2 t3 e : List Char) :
    (o.raster = Except.error e → ocr_page o = []) ∧
    (o.raster = Except.ok () → o.c1 = Except.error e → ocr_page o = []) ∧
    (o.raster = Except.ok () → o.c1 = Except.ok t1 → pyStrip t1 ≠ [] → ocr_page o = t1) ∧
    (o.raster = Except.ok () → o.c1 = Except.ok t1 → pyStrip t1 = [] →
      o.c2 = Except.error e → ocr_page o = []) ∧
    (o.raster = Except.ok () → o.c1 = Except.ok t1 → pyStrip t1 = [] →
      o.c2 = Except.ok t2 → pyStrip t2 ≠ [] → ocr_page o = t2) ∧
    (o.raster = Except.ok () → o.c1 = Except.ok t1 → pyStrip t1 = [] →
      o.c2 = Except.ok t2 → pyStrip t2 = [] → o.c3 = Except.error e → ocr_page o = []) ∧
    (o.raster = Except.ok () → o.c1 = Except.ok t1 → pyStrip t1 = [] →
      o.c2 = Except.ok t2 → pyStrip t2 = [] → o.c3 = Except.ok t3 → ocr_page o = t3) := by
  obtain ⟨r, a, b, c⟩ := o
  refine ⟨?_, ?_, ?_, ?_, ?_, ?_, ?_⟩
  · intro h1
    subst h1
    rfl
  · intro h1 h2
    subst h1
    subst h2
    rfl
  · intro h1 h2 h3
    subst h1
    subst h2
    simp [ocr_page, h3]
  · intro h1 h2 h3 h4
    subst h1
    subst h2
    subst h4
    simp [ocr_page, h3]
  · intro h1 h2 h3 h4 h5
    subst h1
    subst h2
    subst h4
    simp [ocr_page, h3, h5]
  · intro h1 h2 h3 h4 h5 h6
    subst h1
    subst h2
    subst h4
    subst h6
    simp [ocr_page, h3, h5]
  · intro h1 h2 h3 h4 h5 h6
    subst h1
    subst h2
    subst h4
    subst h6
    simp [ocr_page, h3, h5]

/-- Witness for `c7_ocr_fallback_ladder`: the first configuration finds
text and is returned verbatim. -/
theorem c7_ocr_fallback_ladder_witness :
    ocr_page ⟨Except.ok (), Except.ok ['A'], Except.ok [], Except.ok []⟩ = ['A'] :=
  (c7_ocr_fallback_ladder ⟨Except.ok (), Except.ok ['A'], Except.ok [], Except.ok []⟩
    ['A'] [] [] []).2.2.1 rfl rfl (by decide)

/-! ## Claim C10 -/

/-- Claim C10: when the page count of an uploaded PDF cannot be determined
(the open/read raises during counting), `get_pdf_page_count` returns 1,
the upload handler creates exactly one problem record, and background
processing is still dispatched. -/
theorem c10_page_count_fallback (e : List Char) :
    get_pdf_page_count (Except.error e) = 1 ∧
    (upload_pdf (Except.error e)).total_pages = 1 ∧
    (upload_pdf (Except.error e)).problemIds.length = 1 ∧
    (upload_pdf (Except.error e)).dispatched = true := by
  refine ⟨rfl, rfl, ?_, rfl⟩
  simp [upload_pdf, get_pdf_page_count]

/-! ## Claim C8: helper lemmas -/

/-- ASCII uppercase and lowercase ranges are disjoint. -/
theorem upper_not_lower (c : Char) (h : isUpperA c = true) : isLowerA c = false := by
  simp only [isUpperA, Bool.and_eq_true, decide_eq_true_eq] at h
  have hna : ¬ ('a' ≤ c) := fun hla => absurd (le_trans hla h.2) (by decide)
  simp only [isLowerA]
  rw [decide_eq_false hna]
  rfl

/-- Splitting `List.all` of a non-empty list into its `dropLast` part and
its last element. -/
theorem all_split (p : Char → Bool) : ∀ (l : List Char) (c : Char),
    (c :: l).all p = ((c :: l).dropLast.all p && p ((c :: l).getLastD ' ')) := by
  intro l
  induction l with
  | nil => intro c; simp
  | cons d rest ih =>
    intro c
    rw [List.all_cons, ih d, List.dropLast_cons₂, List.all_cons, List.getLastD_cons,
      List.getLastD_cons, List.getLastD_cons, Bool.and_assoc]

/-- The header disjunction of the source (`isupper` or keyword or the
regex `^[A-Z][^.]*[^.]$`) agrees with the claim's wording (all-uppercase,
keyword, or capital-start with no interior period and no final period):
the only difference is the one-character line, which the regex rejects but
`isupper` accepts. -/
theorem header_disjunct_equiv (line : List Char) :
    (isUpperPy line || containsKW line || capRe line) = true ↔
    (isUpperPy line = true ∨ containsKW line = true ∨ specCapLine line = true) := by
  simp only [Bool.or_eq_true]
  constructor
  · rintro ((h | h) | h)
    · exact Or.inl h
    · exact Or.inr (Or.inl h)
    · refine Or.inr (Or.inr ?_)
      cases line with
      | nil => exact absurd h (by decide)
      | cons c rest =>
        cases rest with
        | nil => simp [capRe] at h
        | cons d rest' =>
          simp only [capRe, Bool.and_eq_true] at h
          obtain ⟨⟨hu, _⟩, hall⟩ := h
          rw [all_split (fun x => !(x == '.')) rest' d] at hall
          simp only [Bool.and_eq_true] at hall
          simp only [specCapLine, Bool.and_eq_true]
          exact ⟨⟨hu, hall.1⟩, hall.2⟩
  · rintro (h | h | h)
    · exact Or.inl (Or.inl h)
    · exact Or.inl (Or.inr h)
    · cases line with
      | nil => exact absurd h (by decide)
      | cons c rest =>
        cases rest with
        | nil =>
          refine Or.inl (Or.inl ?_)
          simp only [specCapLine] at h
          simp [isUpperPy, isAlphaA, h, upper_not_lower c h]
        | cons d rest' =>
          refine Or.inr ?_
          simp only [specCapLine, Bool.and_eq_true] at h
          obtain ⟨⟨hu, hdl⟩, hlast⟩ := h
          simp only [capRe, Bool.and_eq_true]
          refine ⟨⟨hu, rfl⟩, ?_⟩
          rw [all_split (fun x => !(x == '.')) rest' d]
          rw [hdl, hlast]
          rfl

/-- Bridging the boolean header condition of the classifier cascade with
the claim's wording. -/
theorem header_cond_iff (lines : List (List Char)) (i : Nat) :
    (decide ((pyStrip (lines.getD i [])).length < 100) && decide (i < lines.length - 1) &&
      !(pyStrip (lines.getD (i + 1) []) == []) &&
      (isUpperPy (pyStrip (lines.getD i [])) || containsKW (pyStrip (lines.getD i [])) ||
        capRe (pyStrip (lines.getD i [])))) = true
    ↔ specHeaderCond lines i := by
  simp only [specHeaderCond, Bool.and_eq_true, decide_eq_true_eq, Bool.not_eq_true',
    beq_eq_false_iff_ne, ne_eq]
  constructor
  · rintro ⟨⟨⟨h1, h2⟩, h3⟩, h4⟩
    exact ⟨h1, by omega, h3, (header_disjunct_equiv _).mp h4⟩
  · rintro ⟨h1, h2, h3, h4⟩
    exact ⟨⟨⟨h1, by omega⟩, h3⟩, (header_disjunct_equiv _).mpr h4⟩

/-- The classifier cascade below the header test never yields the header
category. -/
theorem cascade_not_header (line : List Char) :
    (if numberedRe line then LineCat.numbered
     else if letteredRe line then LineCat.lettered
     else if contains_math line then LineCat.math
     else if listRe line then LineCat.listItem
     else LineCat.prose) ≠ LineCat.header := by
  repeat' split
  all_goals decide

/-- Claim C8: a line is classified as a header exactly when it is shorter
than 100 characters, not the last line, followed by a non-blank line, and
(all-uppercase, or keyword-bearing, or starting with a capital letter with
no interior period and not ending with a period); and concretely the input
line `QUESTION 1` followed by a non-blank line renders as
`## QUESTION 1`. -/
theorem c8_header_classification :
    (∀ (lines : List (List Char)) (i : Nat),
        classifyLine lines i = LineCat.header ↔ specHeaderCond lines i) ∧
    text_to_markdown "QUESTION 1\nSolve for x".toList =
      "## QUESTION 1\nSolve for x".toList := by
  constructor
  · intro lines i
    rw [← header_cond_iff lines i]
    simp only [classifyLine]
    by_cases hb : pyStrip (lines.getD i []) = []
    · rw [if_pos hb]
      have hd : (isUpperPy (pyStrip (lines.getD i [])) ||
          containsKW (pyStrip (lines.getD i [])) || capRe (pyStrip (lines.getD i []))) =
          false := by
        rw [hb]
        decide
      rw [hd, Bool.and_false]
      constructor
      · intro h
        exact absurd h (by decide)
      · intro h
        exact absurd h (by decide)
    · rw [if_neg hb]
      by_cases hc : (decide ((pyStrip (lines.getD i [])).length < 100) &&
          decide (i < lines.length - 1) && !(pyStrip (lines.getD (i + 1) []) == []) &&
          (isUpperPy (pyStrip (lines.getD i [])) || containsKW (pyStrip (lines.getD i [])) ||
            capRe (pyStrip (lines.getD i [])))) = true
      · rw [if_pos hc]
        exact ⟨fun _ => hc, fun _ => rfl⟩
      · rw [if_neg hc]
        constructor
        · intro h
          exact absurd h (cascade_not_header _)
        · intro h
          exact absurd h hc
  · decide

/-! ## Claim C9: helper lemmas -/

/-- Unfolding `hasTripleNL` one character at a time: a triple at the head
needs a newline head and two leading newlines in the tail. -/
theorem hasTripleNL_cons (c : Char) (l : List Char) :
    hasTripleNL (c :: l) = ((c == '\n' && decide (2 ≤ leadNL l)) || hasTripleNL l) := by
  cases l with
  | nil => simp [hasTripleNL, leadNL]
  | cons b rest =>
    cases rest with
    | nil => cases hb : b == '\n' <;> simp [hasTripleNL, leadNL, hb]
    | cons d t =>
      cases hb : b == '\n'
      · simp [hasTripleNL, leadNL, hb]
      · cases hd : d == '\n'
        · simp [hasTripleNL, leadNL, hb, hd]
        · have h2 : 2 ≤ leadNL (b :: d :: t) := by
            simp only [leadNL, hb, hd, if_pos]
            omega
          simp [hasTripleNL, leadNL, hb, hd, h2]

/-- A list with at least two leading newlines starts with two newlines. -/
theorem leadNL_ge_two : ∀ (l : List Char), 2 ≤ leadNL l → ∃ t, l = '\n' :: '\n' :: t := by
  intro l h
  match l with
  | [] => simp [leadNL] at h
  | [c] => cases hc : c == '\n' <;> simp [leadNL, hc] at h
  | c :: d :: t =>
    cases hc : c == '\n'
    · simp [leadNL, hc] at h
    · cases hd : d == '\n'
      · simp [leadNL, hc, hd] at h
      · exact ⟨t, by rw [eq_of_beq hc, eq_of_beq hd]⟩

/-- The collapse worker emits at most `2 - k` leading newlines. -/
theorem collapseNLAux_leadNL : ∀ (l : List Char) (k : Nat),
    leadNL (collapseNLAux k l) ≤ 2 - k := by
  intro l
  induction l with
  | nil => intro k; simp [collapseNLAux, leadNL]
  | cons c rest ih =>
    intro k
    simp only [collapseNLAux]
    cases hc : c == '\n'
    · rw [if_neg (by simp [hc])]
      simp [leadNL, hc]
    · rw [if_pos rfl]
      by_cases hk : k ≥ 2
      · rw [if_pos hk]
        have := ih k
        omega
      · rw [if_neg hk]
        simp only [leadNL]
        rw [if_pos hc]
        have := ih (k + 1)
        omega

/-- The collapse worker never emits three consecutive newlines. -/
theorem collapseNLAux_no_triple : ∀ (l : List Char) (k : Nat),
    hasTripleNL (collapseNLAux k l) = false := by
  intro l
  induction l with
  | nil => intro k; rfl
  | cons c rest ih =>
    intro k
    simp only [collapseNLAux]
    cases hc : c == '\n'
    · rw [if_neg (by simp [hc])]
      rw [hasTripleNL_cons, hc, ih 0]
      rfl
    · rw [if_pos rfl]
      by_cases hk : k ≥ 2
      · rw [if_pos hk]
        exact ih k
      · rw [if_neg hk]
        rw [hasTripleNL_cons, hc, ih (k + 1)]
        have hle := collapseNLAux_leadNL rest (k + 1)
        have hn2 : ¬ (2 ≤ leadNL (collapseNLAux (k + 1) rest)) := by omega
        rw [decide_eq_false hn2]
        rfl

/-- `hasTripleNL` holds exactly when three consecutive newlines occur as a
contiguous infix. -/
theorem hasTripleNL_iff_run : ∀ (l : List Char),
    hasTripleNL l = true ↔ ∃ a b, l = a ++ '\n' :: '\n' :: '\n' :: b := by
  intro l
  induction l with
  | nil =>
    constructor
    · intro h
      cases h
    · rintro ⟨a, b, hab⟩
      exact absurd hab (by simp)
  | cons c rest ih =>
    rw [hasTripleNL_cons]
    constructor
    · intro h
      simp only [Bool.or_eq_true, Bool.and_eq_true, decide_eq_true_eq] at h
      rcases h with ⟨hc, h2⟩ | h
      · obtain ⟨t, ht⟩ := leadNL_ge_two rest h2
        exact ⟨[], t, by rw [eq_of_beq hc, ht]; rfl⟩
      · obtain ⟨a, b, hab⟩ := ih.mp h
        exact ⟨c :: a, b, by rw [hab]; rfl⟩
    · rintro ⟨a, b, hab⟩
      cases a with
      | nil =>
        simp only [List.nil_append, List.cons.injEq] at hab
        obtain ⟨hc, hrest⟩ := hab
        subst hrest
        have h2 : 2 ≤ leadNL ('\n' :: '\n' :: b) := by
          simp only [leadNL, if_pos]
          simp
        simp [hc, h2]
      | cons x a' =>
        simp only [List.cons_append, List.cons.injEq] at hab
        obtain ⟨hcx, hrest⟩ := hab
        have htr : hasTripleNL rest = true := ih.mpr ⟨a', b, hrest⟩
        simp [htr]

/-- A triple-free list has triple-free suffixes. -/
theorem hasTripleNL_append_left (t l : List Char) (h : hasTripleNL (t ++ l) = false) :
    hasTripleNL l = false := by
  by_contra hcon
  rw [Bool.not_eq_false] at hcon
  obtain ⟨a, b, hab⟩ := (hasTripleNL_iff_run l).mp hcon
  have htrue : hasTripleNL (t ++ l) = true :=
    (hasTripleNL_iff_run (t ++ l)).mpr ⟨t ++ a, b, by rw [hab, List.append_assoc]⟩
  rw [htrue] at h
  cases h

/-- `hasTripleNL` is invariant under reversal (a reversed triple is a
triple). -/
theorem hasTripleNL_reverse (l : List Char) : hasTripleNL l.reverse = hasTripleNL l := by
  have key : ∀ (x : List Char), hasTripleNL x = true → hasTripleNL x.reverse = true := by
    intro x hx
    obtain ⟨a, b, hab⟩ := (hasTripleNL_iff_run x).mp hx
    refine (hasTripleNL_iff_run x.reverse).mpr ⟨b.reverse, a.reverse, ?_⟩
    rw [hab]
    simp
  cases hl : hasTripleNL l
  · cases hr : hasTripleNL l.reverse
    · rfl
    · exfalso
      have hx := key l.reverse hr
      rw [List.reverse_reverse, hl] at hx
      cases hx
  · exact key l hl

/-- Every list is its dropped-while prefix plus the `dropWhile` result. -/
theorem dropWhile_suffix_ex (p : Char → Bool) : ∀ (l : List Char),
    ∃ t, l = t ++ l.dropWhile p := by
  intro l
  induction l with
  | nil => exact ⟨[], rfl⟩
  | cons c rest ih =>
    by_cases hc : p c = true
    · obtain ⟨t, ht⟩ := ih
      refine ⟨c :: t, ?_⟩
      rw [List.dropWhile_cons, if_pos hc, List.cons_append, ← ht]
    · refine ⟨[], ?_⟩
      rw [List.dropWhile_cons, if_neg hc, List.nil_append]

/-- Stripping preserves triple-freeness: the stripped string is an infix
of the original. -/
theorem pyStrip_no_triple (l : List Char) (h : hasTripleNL l = false) :
    hasTripleNL (pyStrip l) = false := by
  unfold pyStrip
  have h1 : hasTripleNL (l.dropWhile isSpaceA) = false := by
    obtain ⟨t, ht⟩ := dropWhile_suffix_ex isSpaceA l
    rw [ht] at h
    exact hasTripleNL_append_left t _ h
  have h2 : hasTripleNL (l.dropWhile isSpaceA).reverse = false := by
    rw [hasTripleNL_reverse]
    exact h1
  have h3 : hasTripleNL ((l.dropWhile isSpaceA).reverse.dropWhile isSpaceA) = false := by
    obtain ⟨t, ht⟩ := dropWhile_suffix_ex isSpaceA (l.dropWhile isSpaceA).reverse
    rw [ht] at h2
    exact hasTripleNL_append_left t _ h2
  rw [hasTripleNL_reverse]
  exact h3

/-- `dropWhile` is idempotent. -/
theorem dropWhile_idem (p : Char → Bool) (l : List Char) :
    (l.dropWhile p).dropWhile p = l.dropWhile p := by
  induction l with
  | nil => rfl
  | cons c rest ih =>
    rw [List.dropWhile_cons]
    by_cases hc : p c = true
    · rw [if_pos hc]
      exact ih
    · rw [if_neg hc, List.dropWhile_cons, if_neg hc]

/-- The head of a `dropWhile` result fails the predicate. -/
theorem dropWhile_head_false (p : Char → Bool) : ∀ (l : List Char) (c : Char) (t : List Char),
    l.dropWhile p = c :: t → p c = false := by
  intro l
  induction l with
  | nil =>
    intro c t h
    cases h
  | cons d rest ih =>
    intro c t h
    rw [List.dropWhile_cons] at h
    by_cases hd : p d = true
    · rw [if_pos hd] at h
      exact ih c t h
    · rw [if_neg hd] at h
      injection h with h1 _
      cases hpd : p d
      · rw [← h1]
        exact hpd
      · exact absurd hpd hd

/-- Python `strip` is idempotent: a stripped string strips to itself. -/
theorem pyStrip_idem (l : List Char) : pyStrip (pyStrip l) = pyStrip l := by
  have main : (pyStrip l).dropWhile isSpaceA = pyStrip l := by
    unfold pyStrip
    cases hwre : ((l.dropWhile isSpaceA).reverse.dropWhile isSpaceA).reverse with
    | nil => rfl
    | cons c t =>
      have hwne : (l.dropWhile isSpaceA).reverse.dropWhile isSpaceA ≠ [] := by
        intro hnil
        rw [hnil] at hwre
        cases hwre
      have hlast : ((l.dropWhile isSpaceA).reverse.dropWhile isSpaceA).getLast? = some c := by
        rw [← List.head?_reverse, hwre]
        rfl
      obtain ⟨t2, ht2⟩ := dropWhile_suffix_ex isSpaceA (l.dropWhile isSpaceA).reverse
      have hlast2 : (l.dropWhile isSpaceA).reverse.getLast? = some c := by
        rw [ht2, List.getLast?_append_of_ne_nil t2 hwne]
        exact hlast
      have hhead : (l.dropWhile isSpaceA).head? = some c := by
        rw [← List.reverse_reverse (l.dropWhile isSpaceA), List.head?_reverse]
        exact hlast2
      have hc : isSpaceA c = false := by
        cases hd1 : l.dropWhile isSpaceA with
        | nil =>
          rw [hd1] at hhead
          cases hhead
        | cons e t3 =>
          rw [hd1] at hhead
          injection hhead with he
          rw [← he]
          exact dropWhile_head_false isSpaceA l e t3 hd1
      rw [List.dropWhile_cons, if_neg (by simp [hc])]
  calc pyStrip (pyStrip l)
      = (((pyStrip l).dropWhile isSpaceA).reverse.dropWhile isSpaceA).reverse := rfl
    _ = ((pyStrip l).reverse.dropWhile isSpaceA).reverse := by rw [main]
    _ = pyStrip l := by
        unfold pyStrip
        rw [List.reverse_reverse, dropWhile_idem]

/-- Claim C9: for every input raw text, the markdown produced by
`_text_to_markdown` contains no run of three or more consecutive newline
characters (the `re.sub(r'\n{3,}', '\n\n', ...)` collapse leaves at most
two), and the output carries no leading or trailing whitespace (the final
`.strip()`), witnessed by stripping being the identity on it. -/
theorem c9_no_triple_newlines (text : List Char) :
    hasTripleNL (text_to_markdown text) = false ∧
    pyStrip (text_to_markdown text) = text_to_markdown text := by
  by_cases h : pyStrip text = []
  · simp only [text_to_markdown, if_pos h]
    exact ⟨by decide, by decide⟩
  · simp only [text_to_markdown, if_neg h]
    constructor
    · exact pyStrip_no_triple _ (collapseNLAux_no_triple _ 0)
    · exact pyStrip_idem _
